import Mathlib

/-!
Shallow embedding of the sloptask task-coordination core (Go) in Lean 4.

The embedding follows the Go sources:
  internal/domain (Task, Agent, Workspace, TaskEvent, errors),
  internal/service (Validator, TaskService, deadline helpers),
  internal/repository (TaskRepository.UpdateStatus, FindExpiredDeadlines,
    GetBlockedByTasks, List),
  internal/handler/dto (MapDomainError).
Database state is modelled as plain lists; time is a natural number of
seconds; SQL NOW() is the `now` field of the world.
-/

namespace Sloptask

/-- Task status, mirroring domain.TaskStatus. -/
inductive TaskStatus where
  | new
  | inProgress
  | blocked
  | stuck
  | done
  | cancelled
deriving DecidableEq, Repr

/-- String value of a status, as stored in the database column. -/
def statusString : TaskStatus → String
  | .new => "NEW"
  | .inProgress => "IN_PROGRESS"
  | .blocked => "BLOCKED"
  | .stuck => "STUCK"
  | .done => "DONE"
  | .cancelled => "CANCELLED"

/-- TaskStatus.IsTerminal from domain: DONE and CANCELLED are terminal. -/
def TaskStatus.IsTerminal : TaskStatus → Bool
  | .done => true
  | .cancelled => true
  | _ => false

/-- TaskStatus.HasDeadline from domain: NEW, IN_PROGRESS and BLOCKED carry deadlines. -/
def TaskStatus.HasDeadline : TaskStatus → Bool
  | .new => true
  | .inProgress => true
  | .blocked => true
  | _ => false

/-- TaskStatus.IsValid from domain; every value of the enum is valid. -/
def TaskStatus.IsValid : TaskStatus → Bool
  | _ => true

/-- Task visibility, mirroring domain.TaskVisibility (`private` is a Lean keyword,
so the private constructor is named `priv`). -/
inductive TaskVisibility where
  | public
  | priv
deriving DecidableEq, Repr

/-- String value of a visibility, as stored in the database column. -/
def visibilityString : TaskVisibility → String
  | .public => "public"
  | .priv => "private"

/-- Task priority, mirroring domain.TaskPriority. -/
inductive TaskPriority where
  | low
  | normal
  | high
  | critical
deriving DecidableEq, Repr

/-- String value of a priority, as stored in the database column. -/
def priorityString : TaskPriority → String
  | .low => "low"
  | .normal => "normal"
  | .high => "high"
  | .critical => "critical"

/-- Work item, mirroring domain.Task.  `statusDeadlineAt` is an optional
timestamp (seconds); `none` models SQL NULL. -/
structure Task where
  id : String
  workspaceID : String
  title : String
  description : String
  creatorID : String
  assigneeID : Option String
  status : TaskStatus
  visibility : TaskVisibility
  priority : TaskPriority
  blockedBy : List String
  statusDeadlineAt : Option Nat
  createdAt : Nat
  updatedAt : Nat
deriving DecidableEq, Repr

/-- Task.IsOwnedBy from domain. -/
def Task.IsOwnedBy (t : Task) (agentID : String) : Bool :=
  t.assigneeID == some agentID

/-- Task.IsCreatedBy from domain. -/
def Task.IsCreatedBy (t : Task) (agentID : String) : Bool :=
  t.creatorID == agentID

/-- Principal, mirroring domain.Agent. -/
structure Agent where
  id : String
  workspaceID : String
  name : String
  token : String
  isActive : Bool
  createdAt : Nat
deriving DecidableEq, Repr

/-- Tenant, mirroring domain.Workspace.  `statusDeadlines` is the
status-string to minutes map. -/
structure Workspace where
  id : String
  name : String
  slug : String
  statusDeadlines : List (String × Nat)
  createdAt : Nat
deriving DecidableEq, Repr

/-- Workspace.GetDeadlineMinutes: returns the configured minutes for a status,
or 0 when the status has no entry. -/
def Workspace.GetDeadlineMinutes (w : Workspace) (status : TaskStatus) : Nat :=
  match w.statusDeadlines.lookup (statusString status) with
  | some minutes => minutes
  | none => 0

/-- Event kind, mirroring domain.EventType. -/
inductive EventType where
  | created
  | statusChanged
  | claimed
  | escalated
  | takenOver
  | commented
  | deadlineExpired
deriving DecidableEq, Repr

/-- Audit record, mirroring domain.TaskEvent (the database-generated row id is
omitted; `actorID = none` marks a system event). -/
structure TaskEvent where
  taskID : String
  actorID : Option String
  eventType : EventType
  oldStatus : Option TaskStatus
  newStatus : Option TaskStatus
  comment : String
  createdAt : Nat
deriving DecidableEq, Repr

/-- Domain error values, mirroring domain/errors.go.  Go call sites wrap these
with fmt.Errorf("%w: ...") which preserves errors.Is identity, so the wrapped
error is modelled by its base value. -/
inductive DomainError where
  | taskNotFound
  | taskAlreadyClaimed
  | invalidTransition
  | unresolvedBlockers
  | cyclicDependency
  | permissionDenied
  | notTaskOwner
  | notTaskCreator
  | agentNotFound
  | agentInactive
  | invalidToken
  | workspaceNotFound
  | invalidStatus
  | invalidVisibility
  | invalidPriority
  | emptyComment
deriving DecidableEq, Repr

/-- dto.MapDomainError: maps a domain error to (HTTP status, wire code). -/
def MapDomainError : DomainError → Nat × String
  | .taskNotFound => (404, "TASK_NOT_FOUND")
  | .taskAlreadyClaimed => (409, "TASK_ALREADY_CLAIMED")
  | .invalidTransition => (409, "INVALID_TRANSITION")
  | .unresolvedBlockers => (409, "UNRESOLVED_BLOCKERS")
  | .cyclicDependency => (409, "CYCLIC_DEPENDENCY")
  | .permissionDenied => (403, "INSUFFICIENT_ACCESS")
  | .notTaskOwner => (403, "INSUFFICIENT_ACCESS")
  | .notTaskCreator => (403, "INSUFFICIENT_ACCESS")
  | .agentNotFound => (401, "INVALID_TOKEN")
  | .agentInactive => (401, "AGENT_INACTIVE")
  | .invalidToken => (401, "INVALID_TOKEN")
  | .workspaceNotFound => (404, "WORKSPACE_NOT_FOUND")
  | .invalidStatus => (422, "VALIDATION_ERROR")
  | .invalidVisibility => (422, "VALIDATION_ERROR")
  | .invalidPriority => (422, "VALIDATION_ERROR")
  | .emptyComment => (422, "VALIDATION_ERROR")

/-- Lookup of a task row by id (`SELECT ... WHERE id = $1`). -/
def findTask (tasks : List Task) (taskID : String) : Option Task :=
  tasks.find? (fun t => t.id == taskID)

/-- TaskRepository.GetByID: not-found rows become ErrTaskNotFound. -/
def GetByID (tasks : List Task) (taskID : String) : Except DomainError Task :=
  match findTask tasks taskID with
  | some t => .ok t
  | none => .error .taskNotFound

/-- TaskRepository.GetByIDForUpdate: same row lookup, inside the transaction. -/
def GetByIDForUpdate (tasks : List Task) (taskID : String) : Except DomainError Task :=
  GetByID tasks taskID

/-- The row-matching condition of TaskRepository.UpdateStatus:
`WHERE id = $taskID AND status = $oldStatus`. -/
def updMatches (taskID : String) (oldStatus : TaskStatus) (t : Task) : Bool :=
  t.id == taskID && t.status == oldStatus

/-- The SET clause of TaskRepository.UpdateStatus applied to one row. -/
def updApply (newStatus : TaskStatus) (assigneeID : Option String)
    (statusDeadlineAt : Option Nat) (now : Nat) (t : Task) : Task :=
  { t with
    status := newStatus
    assigneeID := assigneeID
    statusDeadlineAt := statusDeadlineAt
    updatedAt := now }

/-- One row of the UPDATE: rows matching the WHERE clause get the SET clause. -/
def updRow (taskID : String) (oldStatus newStatus : TaskStatus)
    (assigneeID : Option String) (statusDeadlineAt : Option Nat) (now : Nat)
    (t : Task) : Task :=
  if updMatches taskID oldStatus t
  then updApply newStatus assigneeID statusDeadlineAt now t
  else t

/-- TaskRepository.UpdateStatus: optimistic conditional write.  When no row
matches (the observed status is stale) it returns ErrTaskAlreadyClaimed. -/
def UpdateStatus (tasks : List Task) (taskID : String)
    (oldStatus newStatus : TaskStatus) (assigneeID : Option String)
    (statusDeadlineAt : Option Nat) (now : Nat) : Except DomainError (List Task) :=
  if tasks.any (updMatches taskID oldStatus)
  then .ok (tasks.map (updRow taskID oldStatus newStatus assigneeID statusDeadlineAt now))
  else .error .taskAlreadyClaimed

/-- TaskRepository.GetBlockedByTasks: `SELECT ... WHERE id IN (blockedBy)`
(no workspace restriction, exactly as in the Go query). -/
def GetBlockedByTasks (tasks : List Task) (blockedBy : List String) : List Task :=
  tasks.filter (fun t => blockedBy.contains t.id)

/-- The scan predicate of TaskRepository.FindExpiredDeadlines:
`status_deadline_at < NOW() AND status IN (NEW, IN_PROGRESS, BLOCKED)`. -/
def expiredPred (now : Nat) (t : Task) : Bool :=
  (match t.statusDeadlineAt with
   | some d => decide (d < now)
   | none => false)
  && (t.status == .new || t.status == .inProgress || t.status == .blocked)

/-- TaskRepository.FindExpiredDeadlines: all overdue deadline-bearing rows. -/
def FindExpiredDeadlines (tasks : List Task) (now : Nat) : List Task :=
  tasks.filter (expiredPred now)

/-- service.CalculateDeadline: no deadline for non-deadline-bearing statuses or
when the workspace configures 0 minutes; otherwise now plus the configured
minutes (60 seconds each). -/
def CalculateDeadline (workspace : Workspace) (status : TaskStatus) (now : Nat) :
    Option Nat :=
  if !status.HasDeadline then none
  else
    let minutes := workspace.GetDeadlineMinutes status
    if minutes = 0 then none
    else some (now + minutes * 60)

/-- service.ShouldClearAssignee: transitions to NEW clear the assignee. -/
def ShouldClearAssignee (newStatus : TaskStatus) : Bool :=
  newStatus == TaskStatus.new

/-- Validator.CanClaim from service: NEW, unassigned, public, same workspace. -/
def CanClaim (task : Task) (agent : Agent) : Except DomainError Unit :=
  if task.status ≠ TaskStatus.new then .error .invalidTransition
  else match task.assigneeID with
  | some _ => .error .taskAlreadyClaimed
  | none =>
    if task.visibility ≠ TaskVisibility.public then .error .permissionDenied
    else if task.workspaceID ≠ agent.workspaceID then .error .permissionDenied
    else .ok ()

/-- Validator.CanEscalate from service: IN_PROGRESS, not the assignee, same
workspace.  Escalating one's own task yields ErrPermissionDenied. -/
def CanEscalate (task : Task) (agent : Agent) : Except DomainError Unit :=
  if task.status ≠ TaskStatus.inProgress then .error .invalidTransition
  else if task.assigneeID == some agent.id then .error .permissionDenied
  else if task.workspaceID ≠ agent.workspaceID then .error .permissionDenied
  else .ok ()

/-- Validator.CanTakeover from service: STUCK, not the assignee, same workspace. -/
def CanTakeover (task : Task) (agent : Agent) : Except DomainError Unit :=
  if task.status ≠ TaskStatus.stuck then .error .invalidTransition
  else if task.assigneeID == some agent.id then .error .permissionDenied
  else if task.workspaceID ≠ agent.workspaceID then .error .permissionDenied
  else .ok ()

/-- Validator.CanTransitionStatus from service: the hand-written state machine
switch, translated case by case. -/
def CanTransitionStatus (task : Task) (agent : Agent) (newStatus : TaskStatus) :
    Except DomainError Unit :=
  if task.workspaceID ≠ agent.workspaceID then .error .permissionDenied
  else match task.status, newStatus with
  | .new, .inProgress =>
    match task.assigneeID with
    | some a => if a ≠ agent.id then .error .permissionDenied else .ok ()
    | none => .ok ()
  | .new, .cancelled =>
    if task.creatorID ≠ agent.id then .error .notTaskCreator else .ok ()
  | .new, _ => .error .invalidTransition
  | .inProgress, .done =>
    if !task.IsOwnedBy agent.id then .error .notTaskOwner else .ok ()
  | .inProgress, .blocked =>
    if task.IsOwnedBy agent.id then .ok () else .error .permissionDenied
  | .inProgress, .new =>
    if !task.IsOwnedBy agent.id then .error .notTaskOwner else .ok ()
  | .inProgress, .cancelled =>
    if !task.IsCreatedBy agent.id && !task.IsOwnedBy agent.id
    then .error .permissionDenied else .ok ()
  | .inProgress, _ => .error .invalidTransition
  | .blocked, .inProgress =>
    if !task.IsOwnedBy agent.id then .error .notTaskOwner else .ok ()
  | .blocked, .new =>
    if !task.IsCreatedBy agent.id && !task.IsOwnedBy agent.id
    then .error .permissionDenied else .ok ()
  | .blocked, .cancelled =>
    if !task.IsCreatedBy agent.id then .error .notTaskCreator else .ok ()
  | .blocked, _ => .error .invalidTransition
  | .stuck, .inProgress =>
    if !task.IsOwnedBy agent.id then .error .permissionDenied else .ok ()
  | .stuck, .new =>
    if !task.IsCreatedBy agent.id then .error .permissionDenied else .ok ()
  | .stuck, .cancelled =>
    if !task.IsCreatedBy agent.id then .error .notTaskCreator else .ok ()
  | .stuck, _ => .error .invalidTransition
  | .done, _ => .error .invalidTransition
  | .cancelled, _ => .error .invalidTransition

/-- Validator.CheckBlockedByResolved from service: every blocker id must
resolve to an existing row in DONE status; a missing row fails the check. -/
def CheckBlockedByResolved (tasks : List Task) (blockedBy : List String) :
    Except DomainError Unit :=
  if blockedBy.isEmpty then .ok ()
  else
    let found := GetBlockedByTasks tasks blockedBy
    if found.length ≠ blockedBy.length then .error .unresolvedBlockers
    else if found.any (fun t => t.status ≠ TaskStatus.done)
    then .error .unresolvedBlockers
    else .ok ()

/-- The depth bound of the dependency DFS (service maxDependencyDepth). -/
def maxDependencyDepth : Nat := 100

/-- Validator.checkCyclicDependencyWithDepth from service, with the depth
counter replaced by the equivalent remaining fuel (fuel = 101 - depth, so
fuel 0 is the Go condition depth > maxDependencyDepth).  The visited and
recursion-stack maps are threaded explicitly; the loop over task.BlockedBy —
recurse into unvisited children, report a back edge for a visited child still
on the recursion stack, stop at the first error — is the fold, and the task
leaves the recursion stack at the end. -/
def cyclicVisit (store : List Task) : Nat → String → List String → List String →
    Except DomainError (List String × List String)
  | 0, _, _, _ => .error .cyclicDependency
  | Nat.succ fuel1, taskID, visited, recStack =>
    match findTask store taskID with
    | none => .error .taskNotFound
    | some task =>
      match task.blockedBy.foldl
          (fun (acc : Except DomainError (List String × List String)) b =>
            match acc with
            | .error e => .error e
            | .ok (v, r) =>
              if v.contains b then
                if r.contains b then .error .cyclicDependency else .ok (v, r)
              else cyclicVisit store fuel1 b v r)
          (Except.ok (taskID :: visited, taskID :: recStack)) with
      | .error e => .error e
      | .ok (v, r) => .ok (v, r.filter (fun x => !(x == taskID)))

/-- Validator.CheckCyclicDependency from service: the DFS entry point with
fresh visited and recursion-stack maps and depth 0. -/
def CheckCyclicDependency (store : List Task) (taskID : String) :
    Except DomainError Unit :=
  match cyclicVisit store (maxDependencyDepth + 1) taskID [] [] with
  | .error e => .error e
  | .ok _ => .ok ()

/-- The full persistent state seen by the service, together with the database
clock.  `nextID` numbers database-generated task ids. -/
structure World where
  tasks : List Task
  agents : List Agent
  workspaces : List Workspace
  events : List TaskEvent
  now : Nat
  nextID : Nat
deriving DecidableEq, Repr

/-- TaskService.getActiveAgent: fetch an agent and require it active. -/
def getActiveAgent (w : World) (agentID : String) : Except DomainError Agent :=
  match w.agents.find? (fun a => a.id == agentID) with
  | none => .error .agentNotFound
  | some agent =>
    if !agent.isActive then .error .agentInactive else .ok agent

/-- WorkspaceRepository.GetByID: not-found rows become ErrWorkspaceNotFound. -/
def getWorkspace (w : World) (workspaceID : String) : Except DomainError Workspace :=
  match w.workspaces.find? (fun ws => ws.id == workspaceID) with
  | none => .error .workspaceNotFound
  | some ws => .ok ws

/-- TaskService.ClaimTask: an agent takes a free NEW task. -/
def ClaimTask (w : World) (taskID agentID comment : String) :
    Except DomainError (TaskEvent × World) :=
  if comment = "" then .error .emptyComment
  else match GetByIDForUpdate w.tasks taskID with
  | .error e => .error e
  | .ok task =>
  match getActiveAgent w agentID with
  | .error e => .error e
  | .ok agent =>
  match CanClaim task agent with
  | .error e => .error e
  | .ok _ =>
  match CheckBlockedByResolved w.tasks task.blockedBy with
  | .error e => .error e
  | .ok _ =>
  match getWorkspace w task.workspaceID with
  | .error e => .error e
  | .ok workspace =>
  let newDeadline := CalculateDeadline workspace .inProgress w.now
  match UpdateStatus w.tasks taskID .new .inProgress (some agentID) newDeadline w.now with
  | .error e => .error e
  | .ok tasks1 =>
  let event : TaskEvent :=
    { taskID := taskID
      actorID := some agentID
      eventType := .claimed
      oldStatus := some .new
      newStatus := some .inProgress
      comment := comment
      createdAt := w.now }
  .ok (event, { w with tasks := tasks1, events := w.events ++ [event] })

/-- TaskService.EscalateTask: an agent blocks someone else's IN_PROGRESS task;
the assignee is passed through unchanged to the conditional write. -/
def EscalateTask (w : World) (taskID agentID comment : String) :
    Except DomainError (TaskEvent × World) :=
  if comment = "" then .error .emptyComment
  else match GetByIDForUpdate w.tasks taskID with
  | .error e => .error e
  | .ok task =>
  match getActiveAgent w agentID with
  | .error e => .error e
  | .ok agent =>
  match CanEscalate task agent with
  | .error e => .error e
  | .ok _ =>
  match getWorkspace w task.workspaceID with
  | .error e => .error e
  | .ok workspace =>
  let newDeadline := CalculateDeadline workspace .blocked w.now
  match UpdateStatus w.tasks taskID .inProgress .blocked task.assigneeID newDeadline w.now with
  | .error e => .error e
  | .ok tasks1 =>
  let event : TaskEvent :=
    { taskID := taskID
      actorID := some agentID
      eventType := .escalated
      oldStatus := some .inProgress
      newStatus := some .blocked
      comment := comment
      createdAt := w.now }
  .ok (event, { w with tasks := tasks1, events := w.events ++ [event] })

/-- TaskService.TakeoverTask: an agent takes a STUCK task; the assignee is
replaced by the initiator in the conditional write. -/
def TakeoverTask (w : World) (taskID agentID comment : String) :
    Except DomainError (TaskEvent × World) :=
  if comment = "" then .error .emptyComment
  else match GetByIDForUpdate w.tasks taskID with
  | .error e => .error e
  | .ok task =>
  match getActiveAgent w agentID with
  | .error e => .error e
  | .ok agent =>
  match CanTakeover task agent with
  | .error e => .error e
  | .ok _ =>
  match CheckBlockedByResolved w.tasks task.blockedBy with
  | .error e => .error e
  | .ok _ =>
  match getWorkspace w task.workspaceID with
  | .error e => .error e
  | .ok workspace =>
  let newDeadline := CalculateDeadline workspace .inProgress w.now
  match UpdateStatus w.tasks taskID .stuck .inProgress (some agentID) newDeadline w.now with
  | .error e => .error e
  | .ok tasks1 =>
  let event : TaskEvent :=
    { taskID := taskID
      actorID := some agentID
      eventType := .takenOver
      oldStatus := some .stuck
      newStatus := some .inProgress
      comment := comment
      createdAt := w.now }
  .ok (event, { w with tasks := tasks1, events := w.events ++ [event] })

/-- TaskService.TransitionStatus: the generic transition path, including the
blocker and cycle checks on activation and the assignee-clearing rule. -/
def TransitionStatus (w : World) (taskID agentID : String)
    (newStatus : TaskStatus) (comment : String) :
    Except DomainError (TaskEvent × World) :=
  if comment = "" then .error .emptyComment
  else if !newStatus.IsValid then .error .invalidStatus
  else match GetByIDForUpdate w.tasks taskID with
  | .error e => .error e
  | .ok task =>
  match getActiveAgent w agentID with
  | .error e => .error e
  | .ok agent =>
  match CanTransitionStatus task agent newStatus with
  | .error e => .error e
  | .ok _ =>
  match (if newStatus = TaskStatus.inProgress then
           match CheckBlockedByResolved w.tasks task.blockedBy with
           | .error e => .error e
           | .ok _ => CheckCyclicDependency w.tasks taskID
         else .ok () : Except DomainError Unit) with
  | .error e => .error e
  | .ok _ =>
  match getWorkspace w task.workspaceID with
  | .error e => .error e
  | .ok workspace =>
  let newDeadline := CalculateDeadline workspace newStatus w.now
  let newAssignee := if ShouldClearAssignee newStatus then none else task.assigneeID
  match UpdateStatus w.tasks taskID task.status newStatus newAssignee newDeadline w.now with
  | .error e => .error e
  | .ok tasks1 =>
  let event : TaskEvent :=
    { taskID := taskID
      actorID := some agentID
      eventType := .statusChanged
      oldStatus := some task.status
      newStatus := some newStatus
      comment := comment
      createdAt := w.now }
  .ok (event, { w with tasks := tasks1, events := w.events ++ [event] })

/-- The comment text written by processExpiredTask. -/
def expiredComment (oldStatus : TaskStatus) (durationMinutes : Int) : String :=
  "Status deadline expired. Was in " ++ statusString oldStatus ++ " for "
    ++ toString durationMinutes ++ " minutes."

/-- The overdue duration written by processExpiredTask (the Go code takes
StatusDeadlineAt minus UpdatedAt, truncated to whole minutes). -/
def durationMinutesOf (task : Task) : Int :=
  match task.statusDeadlineAt with
  | some d => ((d : Int) - (task.updatedAt : Int)) / 60
  | none => 0

/-- The system event appended by processExpiredTask. -/
def expiredEventOf (now : Nat) (task : Task) : TaskEvent :=
  { taskID := task.id
    actorID := none
    eventType := .deadlineExpired
    oldStatus := some task.status
    newStatus := some .stuck
    comment := expiredComment task.status (durationMinutesOf task)
    createdAt := now }

/-- TaskService.processExpiredTask: conditional write to STUCK with cleared
deadline and kept assignee, plus one system deadline_expired event. -/
def processExpiredTask (w : World) (task : Task) : Except DomainError World :=
  match UpdateStatus w.tasks task.id task.status .stuck task.assigneeID none w.now with
  | .error e => .error e
  | .ok tasks1 =>
    .ok { w with tasks := tasks1, events := w.events ++ [expiredEventOf w.now task] }

/-- The world change of one iteration of the reaper loop: a failed item leaves
the world untouched. -/
def reapStep (w : World) (task : Task) : World :=
  match processExpiredTask w task with
  | .error _ => w
  | .ok w1 => w1

/-- One iteration of the reaper loop including the success and failure
counters reported at the end of the pass. -/
def reapStepCounted (acc : World × Nat × Nat) (task : Task) : World × Nat × Nat :=
  match processExpiredTask acc.1 task with
  | .error _ => (acc.1, acc.2.1, acc.2.2 + 1)
  | .ok w1 => (w1, acc.2.1 + 1, acc.2.2)

/-- TaskService.ProcessExpiredDeadlines: scan once, then process each overdue
task independently, counting successes and failures. -/
def ProcessExpiredDeadlines (w : World) : World × Nat × Nat :=
  (FindExpiredDeadlines w.tasks w.now).foldl reapStepCounted (w, 0, 0)

/-- Number of deadline_expired events recorded for a task. -/
def countExpiredEvents (events : List TaskEvent) (taskID : String) : Nat :=
  (events.filter (fun e => e.taskID == taskID && e.eventType == EventType.deadlineExpired)).length

/-- service.CreateTaskParams. -/
structure CreateTaskParams where
  workspaceID : String
  creatorID : String
  title : String
  description : String
  assigneeID : Option String
  visibility : TaskVisibility
  priority : TaskPriority
  blockedBy : List String
deriving DecidableEq, Repr

/-- Errors of TaskService.CreateTask: the field validations use plain
fmt.Errorf errors, everything else wraps a domain error. -/
inductive CreateTaskError where
  | domain (e : DomainError)
  | validation (msg : String)
deriving DecidableEq, Repr

/-- The assignee validation inside TaskService.CreateTask: when an assignee is
given it must exist, be active, and share the creator's workspace. -/
def validateAssignee (w : World) (creator : Agent) :
    Option String → Except DomainError Unit
  | none => .ok ()
  | some assigneeID =>
    match getActiveAgent w assigneeID with
    | .error e => .error e
    | .ok assignee =>
      if assignee.workspaceID ≠ creator.workspaceID then .error .permissionDenied
      else .ok ()

/-- TaskService.CreateTask, translated step by step.  Note that when
params.BlockedBy is non-empty the Go code runs the cycle check on the empty
task id (the task does not exist yet), exactly as written in the source. -/
def CreateTask (w : World) (p : CreateTaskParams) :
    Except CreateTaskError (Task × World) :=
  if p.title = "" then .error (.validation "title is required")
  else if p.title.length < 5 || p.title.length > 200 then
    .error (.validation "title must be between 5 and 200 characters")
  else if p.description = "" then .error (.validation "description is required")
  else match getActiveAgent w p.creatorID with
  | .error e => .error (.domain e)
  | .ok creator =>
  match validateAssignee w creator p.assigneeID with
  | .error e => .error (.domain e)
  | .ok _ =>
  match (if !p.blockedBy.isEmpty then CheckCyclicDependency w.tasks "" else .ok ()) with
  | .error e => .error (.domain e)
  | .ok _ =>
  let initialStatus := if p.assigneeID.isSome then TaskStatus.inProgress else TaskStatus.new
  match getWorkspace w p.workspaceID with
  | .error e => .error (.domain e)
  | .ok workspace =>
  let deadline := CalculateDeadline workspace initialStatus w.now
  let task : Task :=
    { id := "task-" ++ toString w.nextID
      workspaceID := p.workspaceID
      title := p.title
      description := p.description
      creatorID := p.creatorID
      assigneeID := p.assigneeID
      status := initialStatus
      visibility := p.visibility
      priority := p.priority
      blockedBy := p.blockedBy
      statusDeadlineAt := deadline
      createdAt := w.now
      updatedAt := w.now }
  let event : TaskEvent :=
    { taskID := task.id
      actorID := some p.creatorID
      eventType := .created
      oldStatus := none
      newStatus := some initialStatus
      comment := "Task created"
      createdAt := w.now }
  .ok (task, { w with
               tasks := w.tasks ++ [task]
               events := w.events ++ [event]
               nextID := w.nextID + 1 })

/-- repository.TaskListFilters. -/
structure TaskListFilters where
  workspaceID : String
  agentID : String
  statuses : List String
  assigneeID : Option String
  unassigned : Bool
  visibility : Option String
  priorities : List String
  overdue : Bool
  hasUnresolvedBlockers : Bool
  sort : List String
  limit : Nat
  offset : Nat
deriving DecidableEq, Repr

/-- repository.TaskListResult. -/
structure TaskListResult where
  task : Task
  hasUnresolvedBlockers : Bool
  isOverdue : Bool
deriving DecidableEq, Repr

/-- The WHERE clause built by TaskRepository.List (used identically by the row
query and the count query).  When a visibility filter is supplied the query
restricts only on the visibility column; the creator-or-assignee guard exists
only in the no-filter branch, exactly as in the source. -/
def listWherePred (f : TaskListFilters) (now : Nat) (t : Task) : Bool :=
  (t.workspaceID == f.workspaceID)
  && (f.statuses.isEmpty || f.statuses.contains (statusString t.status))
  && (if f.unassigned then t.assigneeID == none
      else match f.assigneeID with
           | some a => t.assigneeID == some a
           | none => true)
  && (match f.visibility with
      | some v => visibilityString t.visibility == v
      | none =>
        visibilityString t.visibility == "public"
        || (visibilityString t.visibility == "private"
            && (t.creatorID == f.agentID || t.assigneeID == some f.agentID)))
  && (f.priorities.isEmpty || f.priorities.contains (priorityString t.priority))
  && (if f.overdue then
        match t.statusDeadlineAt with
        | some d => decide (d < now)
        | none => false
      else true)

/-- repository allowedSortFields: the sort allow-list. -/
def allowedSortFields : List String := ["id", "status", "priority", "created_at", "updated_at", "title"]

/-- Splitting a sort key into field and direction: a leading dash means
descending. -/
def stripSortField (s : String) : String × Bool :=
  match s.data with
  | '-' :: rest => (String.mk rest, true)
  | _ => (s, false)

/-- The sanitised ORDER BY items built from caller-supplied sort keys: keys
whose field is outside the allow-list are skipped silently. -/
def sanitizeSort (sort : List String) : List (String × Bool) :=
  sort.filterMap (fun s =>
    if allowedSortFields.contains (stripSortField s).1
    then some (stripSortField s) else none)

/-- The default ORDER BY of the list query: priority rank ascending (critical
first), then created_at ascending. -/
def defaultOrderSpecs : List (String × Bool) := [("priority", false), ("created_at", false)]

/-- The ORDER BY items the query layer receives: the default only when no sort
keys were supplied at all, otherwise the sanitised keys (possibly none). -/
def buildOrderSpecs (sort : List String) : List (String × Bool) :=
  if sort.isEmpty then defaultOrderSpecs else sanitizeSort sort

/-- The CASE expression rank used for priority sorting (critical=1 .. low=4). -/
def priorityCaseRank : TaskPriority → Nat
  | .critical => 1
  | .high => 2
  | .normal => 3
  | .low => 4

/-- Comparison of two rows on one sort field. -/
def fieldKeyCmp (field : String) (a b : Task) : Ordering :=
  if field == "id" then compare a.id b.id
  else if field == "status" then compare (statusString a.status) (statusString b.status)
  else if field == "priority" then compare (priorityCaseRank a.priority) (priorityCaseRank b.priority)
  else if field == "created_at" then compare a.createdAt b.createdAt
  else if field == "updated_at" then compare a.updatedAt b.updatedAt
  else if field == "title" then compare a.title b.title
  else Ordering.eq

/-- Comparison of two rows under a list of ORDER BY items. -/
def specsCmp : List (String × Bool) → Task → Task → Ordering
  | [], _, _ => .eq
  | (field, descending) :: rest, a, b =>
    let o := fieldKeyCmp field a b
    let o := if descending then o.swap else o
    match o with
    | .eq => specsCmp rest a b
    | .lt => .lt
    | .gt => .gt

/-- Stable insertion of a row into an already ordered list. -/
def insertSorted (le : Task → Task → Bool) : Task → List Task → List Task
  | x, [] => [x]
  | x, y :: ys => if le y x then y :: insertSorted le x ys else x :: y :: ys

/-- Stable sort of the result rows by the ORDER BY items. -/
def sortTasks (specs : List (String × Bool)) (ts : List Task) : List Task :=
  ts.foldl (fun acc x => insertSorted (fun a b => !(specsCmp specs a b == Ordering.gt)) x acc) []

/-- The derived has_unresolved_blockers flag: some referenced blocker row
exists and is not DONE (missing blockers count as resolved, as in
batchLoadBlockers). -/
def hasUnresolvedBlockersOf (store : List Task) (t : Task) : Bool :=
  t.blockedBy.any (fun bid =>
    match findTask store bid with
    | some b => !(b.status == TaskStatus.done)
    | none => false)

/-- TaskRepository.List (the repository file with batch blocker loading):
filter, order, paginate, count without pagination, annotate, and finally apply
the derived has_unresolved_blockers filter which also overwrites the total. -/
def listTasks (store : List Task) (now : Nat) (f : TaskListFilters) :
    List TaskListResult × Nat :=
  let matched := store.filter (listWherePred f now)
  let sorted := sortTasks (buildOrderSpecs f.sort) matched
  let page := (sorted.drop f.offset).take f.limit
  let total := matched.length
  let results := page.map (fun t =>
    { task := t
      hasUnresolvedBlockers := hasUnresolvedBlockersOf store t
      isOverdue := match t.statusDeadlineAt with
                   | some d => decide (d < now)
                   | none => false })
  if f.hasUnresolvedBlockers then
    let filtered := results.filter (fun r => r.hasUnresolvedBlockers)
    (filtered, filtered.length)
  else (results, total)

/-- The transition table of specification section 4.1, transcribed row by row
from the specification text for comparison with the code: the twelve
agent-initiated rows plus the system row (any deadline-bearing state to
STUCK).  This definition follows the specification, not the code. -/
def specTransitionTable (src tgt : TaskStatus) : Bool :=
  match src, tgt with
  | .new, .inProgress => true
  | .new, .cancelled => true
  | .inProgress, .done => true
  | .inProgress, .blocked => true
  | .inProgress, .new => true
  | .inProgress, .cancelled => true
  | .blocked, .inProgress => true
  | .blocked, .new => true
  | .blocked, .cancelled => true
  | .stuck, .inProgress => true
  | .stuck, .new => true
  | .stuck, .cancelled => true
  | src, .stuck => src.HasDeadline
  | _, _ => false

/-- A private task created by agent A, unassigned, in workspace W. -/
def c1PrivateTask : Task :=
  { id := "t1", workspaceID := "W", title := "Secret task", description := "d",
    creatorID := "A", assigneeID := none, status := .new, visibility := .priv,
    priority := .normal, blockedBy := [], statusDeadlineAt := none,
    createdAt := 0, updatedAt := 0 }

/-- A listing request by viewer B that explicitly asks for private items. -/
def c1Filters : TaskListFilters :=
  { workspaceID := "W", agentID := "B", statuses := [], assigneeID := none,
    unassigned := false, visibility := some "private", priorities := [],
    overdue := false, hasUnresolvedBlockers := false, sort := [], limit := 50,
    offset := 0 }

/-- A workspace used by the concrete scenarios. -/
def c2Workspace : Workspace :=
  { id := "W", name := "w", slug := "w",
    statusDeadlines := [("IN_PROGRESS", 60)], createdAt := 0 }

/-- An active agent in workspace W. -/
def c2Creator : Agent :=
  { id := "A", workspaceID := "W", name := "a", token := "tokA",
    isActive := true, createdAt := 0 }

/-- An existing DONE task in workspace W, usable as a resolved blocker. -/
def c2Blocker : Task :=
  { id := "a1", workspaceID := "W", title := "Alpha task", description := "d",
    creatorID := "A", assigneeID := none, status := .done, visibility := .public,
    priority := .normal, blockedBy := [], statusDeadlineAt := none,
    createdAt := 0, updatedAt := 0 }

/-- The world holding the blocker, its creator and the workspace. -/
def c2World : World :=
  { tasks := [c2Blocker], agents := [c2Creator], workspaces := [c2Workspace],
    events := [], now := 0, nextID := 0 }

/-- A fully valid create request whose blocked_by names the DONE blocker. -/
def c2Params : CreateTaskParams :=
  { workspaceID := "W", creatorID := "A", title := "A valid title",
    description := "desc", assigneeID := none, visibility := .public,
    priority := .normal, blockedBy := ["a1"] }

/-- A DONE (terminal) task in workspace W1. -/
def c3Task : Task :=
  { id := "t3", workspaceID := "W1", title := "Terminal task", description := "d",
    creatorID := "A", assigneeID := none, status := .done, visibility := .public,
    priority := .normal, blockedBy := [], statusDeadlineAt := none,
    createdAt := 0, updatedAt := 0 }

/-- An active agent of a different workspace W2. -/
def c3Agent : Agent :=
  { id := "B", workspaceID := "W2", name := "b", token := "tokB",
    isActive := true, createdAt := 0 }

/-- An agent of workspace W1, creator of c3Task. -/
def c3SameWsAgent : Agent :=
  { id := "A", workspaceID := "W1", name := "a", token := "tokA1",
    isActive := true, createdAt := 0 }

/-- An IN_PROGRESS task assigned to agent A. -/
def c8Task : Task :=
  { id := "t8", workspaceID := "W", title := "Working task", description := "d",
    creatorID := "C", assigneeID := some "A", status := .inProgress,
    visibility := .public, priority := .normal, blockedBy := [],
    statusDeadlineAt := none, createdAt := 0, updatedAt := 0 }

/-- Agent A, the assignee of c8Task. -/
def c8Agent : Agent :=
  { id := "A", workspaceID := "W", name := "a", token := "tokA8",
    isActive := true, createdAt := 0 }

/-- Builder for concrete agents used by the witnesses. -/
def mkAgent (id ws : String) : Agent :=
  { id := id, workspaceID := ws, name := id, token := "tok-" ++ id,
    isActive := true, createdAt := 0 }

/-- Builder for concrete tasks used by the witnesses. -/
def mkTask (id ws creator : String) (st : TaskStatus) (asg : Option String) : Task :=
  { id := id, workspaceID := ws, title := "Task " ++ id, description := "d",
    creatorID := creator, assigneeID := asg, status := st,
    visibility := .public, priority := .normal, blockedBy := [],
    statusDeadlineAt := none, createdAt := 0, updatedAt := 0 }

/-- A workspace configuring deadlines for all three deadline-bearing states. -/
def wsMain : Workspace :=
  { id := "W", name := "w", slug := "w",
    statusDeadlines := [("NEW", 120), ("IN_PROGRESS", 60), ("BLOCKED", 30)],
    createdAt := 0 }

/-- A workspace configuring a deadline only for IN_PROGRESS. -/
def wsSparse : Workspace :=
  { id := "WS", name := "ws", slug := "ws",
    statusDeadlines := [("IN_PROGRESS", 60)], createdAt := 0 }

/-- A world with one task in each interesting state, two agents, and the
fully configured workspace. -/
def demoWorld : World :=
  { tasks := [mkTask "t-new" "W" "A" .new none,
              mkTask "t-ip" "W" "A" .inProgress (some "A"),
              mkTask "t-stuck" "W" "A" .stuck (some "A"),
              mkTask "t-na" "W" "A" .new (some "A")],
    agents := [mkAgent "A" "W", mkAgent "B" "W"],
    workspaces := [wsMain], events := [], now := 0, nextID := 0 }

/-- An overdue IN_PROGRESS task (deadline 10, clock at 100 in its world). -/
def c7Task : Task :=
  { mkTask "t7" "W" "A" .inProgress (some "A") with statusDeadlineAt := some 10 }

/-- The world containing only the overdue task, with the clock past the
deadline. -/
def c7World : World :=
  { tasks := [c7Task], agents := [], workspaces := [wsMain], events := [],
    now := 100, nextID := 0 }

/-- C1: the task-listing operation must return no private item whose creator
and assignee both differ from the viewer, for every filter specification —
including requests that explicitly set a visibility filter — and the total
must count no such item.  The code violates this: when the request sets
visibility=private, the query restricts only on the visibility column and
returns every private item of the workspace.  Viewer B, who is neither
creator nor assignee of the private task, receives the task and a total of 1. -/
theorem C1_list_leaks_private_item_under_explicit_visibility_filter :
    c1PrivateTask.visibility = TaskVisibility.priv
    ∧ c1PrivateTask.creatorID ≠ c1Filters.agentID
    ∧ c1PrivateTask.assigneeID = none
    ∧ c1Filters.visibility = some "private"
    ∧ listTasks [c1PrivateTask] 0 c1Filters =
        ([{ task := c1PrivateTask, hasUnresolvedBlockers := false, isOverdue := false }], 1)
    ∧ listTasks [c1PrivateTask] 0 { c1Filters with visibility := none } = ([], 0) := by
  refine ⟨rfl, by decide, rfl, rfl, ?_, ?_⟩ <;> rfl

/-- C2: a valid create request with a non-empty blocked_by list (title within
5..200 characters, non-empty description, active creator, blocker an existing
DONE task of the same workspace) should succeed, but CreateTask runs the
cyclic-dependency check on the empty task id, whose lookup fails, so every
such request errors with the task-not-found error. -/
theorem C2_createTask_with_blockers_always_errors :
    (5 ≤ c2Params.title.length ∧ c2Params.title.length ≤ 200)
    ∧ c2Params.description ≠ ""
    ∧ getActiveAgent c2World c2Params.creatorID = .ok c2Creator
    ∧ findTask c2World.tasks "a1" = some c2Blocker
    ∧ c2Blocker.status = TaskStatus.done
    ∧ c2Blocker.workspaceID = c2Params.workspaceID
    ∧ c2Params.blockedBy = ["a1"]
    ∧ CreateTask c2World c2Params = .error (.domain .taskNotFound) := by
  refine ⟨by decide, by decide, rfl, rfl, rfl, rfl, rfl, ?_⟩
  rfl

/-- C8: by the specification an escalate attempt by the current assignee of an
IN_PROGRESS item fails with the cannot-escalate-own kind, surfaced as HTTP 409
CANNOT_ESCALATE_OWN.  The code instead returns the generic permission-denied
error, which the boundary maps to HTTP 403 INSUFFICIENT_ACCESS; no
CANNOT_ESCALATE_OWN code exists in the error mapper. -/
theorem C8_escalate_own_task_maps_to_permission_denied :
    c8Task.status = TaskStatus.inProgress
    ∧ c8Task.assigneeID = some c8Agent.id
    ∧ CanEscalate c8Task c8Agent = .error .permissionDenied
    ∧ MapDomainError .permissionDenied = (403, "INSUFFICIENT_ACCESS")
    ∧ ((403 : Nat), "INSUFFICIENT_ACCESS") ≠ ((409 : Nat), "CANNOT_ESCALATE_OWN") := by
  refine ⟨rfl, rfl, rfl, rfl, by decide⟩

/-- C9 counterexample: the claim says the query falls back to the default
order when no valid sort keys remain.  With the single invalid key "bogus"
the code emits an empty ORDER BY list, not the default one. -/
theorem C9_counterexample_no_default_order_fallback :
    buildOrderSpecs ["bogus"] = []
    ∧ buildOrderSpecs [] = defaultOrderSpecs
    ∧ buildOrderSpecs ["bogus"] ≠ defaultOrderSpecs := by
  refine ⟨rfl, rfl, ?_⟩
  intro h
  rw [show buildOrderSpecs ["bogus"] = [] from rfl] at h
  cases h

/-- C3 counterexample: the claim quantifies over every initiating actor, but
for an actor of a different workspace the validation returns the
permission-denied error before looking at the transition pair.  Here the pair
(DONE, NEW) is outside the section 4.1 table, yet the result is not the
invalid-transition error. -/
theorem C3_counterexample_cross_workspace_actor :
    specTransitionTable c3Task.status TaskStatus.new = false
    ∧ c3Task.workspaceID ≠ c3Agent.workspaceID
    ∧ CanTransitionStatus c3Task c3Agent TaskStatus.new = .error .permissionDenied
    ∧ CanTransitionStatus c3Task c3Agent TaskStatus.new ≠ .error .invalidTransition := by
  refine ⟨rfl, by decide, rfl, ?_⟩
  intro h
  rw [show CanTransitionStatus c3Task c3Agent TaskStatus.new = .error .permissionDenied
      from rfl] at h
  injection h with h2
  cases h2

/-- C3 (amended): for every (source, target) pair not in the section 4.1
transition table and every initiating actor of the item's workspace, the
transition validation returns the invalid-transition error; in particular from
DONE or CANCELLED no target state is accepted. -/
theorem C3_state_graph_completeness (task : Task) (agent : Agent) (tgt : TaskStatus)
    (hws : task.workspaceID = agent.workspaceID)
    (htab : specTransitionTable task.status tgt = false) :
    CanTransitionStatus task agent tgt = .error .invalidTransition := by
  unfold CanTransitionStatus
  rw [if_neg (by simp [hws])]
  rcases task with ⟨tid, tws, ttl, tds, tcr, tas, tst, tvs, tpr, tbb, tdl, tca, tua⟩
  cases tst <;> cases tgt <;>
    simp_all [specTransitionTable, TaskStatus.HasDeadline]

/-- Witness for C3: the concrete pair (NEW, DONE) is outside the table and a
same-workspace agent receives the invalid-transition error. -/
theorem C3_state_graph_completeness_witness :
    CanTransitionStatus { c3Task with status := TaskStatus.new } c3SameWsAgent
      TaskStatus.done = .error .invalidTransition :=
  C3_state_graph_completeness { c3Task with status := TaskStatus.new } c3SameWsAgent
    TaskStatus.done rfl rfl

/-- C9 (amended): every supplied sort key outside the allow-list is silently
dropped and never reaches the query layer (every ORDER BY item handed to the
query has an allow-listed field); the query still succeeds.  The default order
applies only when no sort keys are supplied at all: when keys are supplied and
all of them are invalid, the query runs with an empty ORDER BY list rather
than the default order. -/
theorem C9_sort_key_sanitisation :
    (∀ (s : String) (rest : List String),
       allowedSortFields.contains (stripSortField s).1 = false →
       sanitizeSort (s :: rest) = sanitizeSort rest)
    ∧ (∀ (sort : List String) (spec : String × Bool),
         spec ∈ buildOrderSpecs sort → allowedSortFields.contains spec.1 = true)
    ∧ buildOrderSpecs [] = defaultOrderSpecs
    ∧ (∀ sort : List String, sort ≠ [] → buildOrderSpecs sort = sanitizeSort sort) := by
  refine ⟨?_, ?_, rfl, ?_⟩
  · intro s rest hs
    unfold sanitizeSort
    rw [List.filterMap_cons]
    have hnone :
        (if allowedSortFields.contains (stripSortField s).1 = true
         then some (stripSortField s) else none) = none := by
      rw [hs]
      simp
    rw [hnone]
  · intro sort spec hspec
    unfold buildOrderSpecs at hspec
    by_cases hs : sort.isEmpty
    · rw [if_pos hs] at hspec
      fin_cases hspec <;> decide
    · rw [if_neg hs] at hspec
      unfold sanitizeSort at hspec
      rcases List.mem_filterMap.mp hspec with ⟨s, hmem, hmap⟩
      by_cases hin : allowedSortFields.contains (stripSortField s).1 = true
      · rw [if_pos hin] at hmap
        injection hmap with h2
        rw [← h2]
        exact hin
      · rw [if_neg hin] at hmap
        simp at hmap
  · intro sort hne
    unfold buildOrderSpecs
    rw [if_neg (by simp only [List.isEmpty_iff]; exact hne)]

/-- Witness for C9: the invalid key injected before a valid key is dropped,
the surviving item carries an allow-listed field, and a non-empty sort list
bypasses the default order. -/
theorem C9_sort_key_sanitisation_witness :
    sanitizeSort ["bogus", "id"] = sanitizeSort ["id"]
    ∧ allowedSortFields.contains "id" = true
    ∧ buildOrderSpecs [] = defaultOrderSpecs
    ∧ buildOrderSpecs ["bogus", "id"] = sanitizeSort ["bogus", "id"] :=
  ⟨C9_sort_key_sanitisation.1 "bogus" ["id"] (by decide),
   C9_sort_key_sanitisation.2.1 ["id"] ("id", false) (by decide),
   C9_sort_key_sanitisation.2.2.1,
   C9_sort_key_sanitisation.2.2.2 ["bogus", "id"] (by decide)⟩

theorem updRow_id (taskID : String) (o n : TaskStatus) (a : Option String)
    (d : Option Nat) (now : Nat) (t : Task) :
    (updRow taskID o n a d now t).id = t.id := by
  unfold updRow updApply
  split <;> rfl

theorem findTask_map_of_id (f : Task → Task) (hf : ∀ u, (f u).id = u.id)
    (tasks : List Task) (tid : String) :
    findTask (tasks.map f) tid = (findTask tasks tid).map f := by
  induction tasks with
  | nil => rfl
  | cons u rest ih =>
    simp only [findTask, List.map_cons, List.find?] at *
    rw [hf u]
    cases h : (u.id == tid)
    · exact ih
    · rfl

theorem findTask_some_id {tasks : List Task} {tid : String} {t : Task}
    (h : findTask tasks tid = some t) : t.id = tid := by
  have := List.find?_some h
  simpa using this

theorem findTask_mem {tasks : List Task} {tid : String} {t : Task}
    (h : findTask tasks tid = some t) : t ∈ tasks :=
  List.mem_of_find?_eq_some h

theorem findTask_of_mem_nodup {tasks : List Task} {t : Task}
    (hm : t ∈ tasks) (hnd : (tasks.map Task.id).Nodup) :
    findTask tasks t.id = some t := by
  induction tasks with
  | nil => cases hm
  | cons u rest ih =>
    simp only [List.map_cons, List.nodup_cons] at hnd
    rcases List.mem_cons.mp hm with rfl | hm2
    · simp [findTask, List.find?]
    · have hne : u.id ≠ t.id := by
        intro he
        exact hnd.1 (he ▸ List.mem_map_of_mem Task.id hm2)
      simp only [findTask, List.find?] at *
      rw [show (u.id == t.id) = false from beq_eq_false_iff_ne.mpr hne]
      exact ih hm2 hnd.2

theorem findTask_UpdateStatus_ok {tasks tasks1 : List Task} {tid : String}
    {o n : TaskStatus} {a : Option String} {d : Option Nat} {now : Nat} {t : Task}
    (hfind : findTask tasks tid = some t)
    (hok : UpdateStatus tasks tid o n a d now = .ok tasks1)
    (hst : t.status = o) :
    findTask tasks1 tid = some (updApply n a d now t) := by
  unfold UpdateStatus at hok
  split at hok
  · injection hok with h1
    subst h1
    rw [findTask_map_of_id _ (updRow_id tid o n a d now), hfind]
    have hcond : updMatches tid o t = true := by
      unfold updMatches
      rw [findTask_some_id hfind, hst]
      simp
    simp [updRow, hcond]
  · cases hok

theorem UpdateStatus_preserves_other {tasks tasks1 : List Task} {tid : String}
    {o n : TaskStatus} {a : Option String} {d : Option Nat} {now : Nat}
    (hok : UpdateStatus tasks tid o n a d now = .ok tasks1) :
    ∀ u ∈ tasks, u.id ≠ tid → u ∈ tasks1 := by
  unfold UpdateStatus at hok
  split at hok
  · injection hok with h1
    subst h1
    intro u hu hne
    have : updRow tid o n a d now u = u := by
      unfold updRow updMatches
      rw [show (u.id == tid) = false from beq_eq_false_iff_ne.mpr hne]
      simp
    exact this ▸ List.mem_map_of_mem _ hu
  · cases hok

/-- C4: UpdateStatus is a conditional write.  For an item found in the store
(ids unique), an update succeeds iff the stored status equals the observed
source status; on success the item carries the new status, assignee and
deadline while rows with other ids survive unchanged; on mismatch the call
returns the concurrent-modification error ErrTaskAlreadyClaimed and yields no
new store. -/
theorem C4_updateStatus_conditional_write (tasks : List Task) (tid : String)
    (o n : TaskStatus) (a : Option String) (d : Option Nat) (now : Nat) (t : Task)
    (hfind : findTask tasks tid = some t)
    (hnd : (tasks.map Task.id).Nodup) :
    ((∃ tasks1, UpdateStatus tasks tid o n a d now = .ok tasks1) ↔ t.status = o)
    ∧ (t.status = o →
        ∃ tasks1, UpdateStatus tasks tid o n a d now = .ok tasks1
          ∧ findTask tasks1 tid = some (updApply n a d now t)
          ∧ ∀ u ∈ tasks, u.id ≠ tid → u ∈ tasks1)
    ∧ (t.status ≠ o →
        UpdateStatus tasks tid o n a d now = .error .taskAlreadyClaimed) := by
  have hmem := findTask_mem hfind
  have hid := findTask_some_id hfind
  have hforward : tasks.any (updMatches tid o) = true → t.status = o := by
    intro h
    rcases List.any_eq_true.mp h with ⟨u, hu, hmat⟩
    unfold updMatches at hmat
    rw [Bool.and_eq_true, beq_iff_eq, beq_iff_eq] at hmat
    obtain ⟨h1, h2⟩ := hmat
    have hft := findTask_of_mem_nodup hu hnd
    rw [h1, hfind] at hft
    injection hft with h3
    rw [h3]
    exact h2
  have hback : t.status = o → tasks.any (updMatches tid o) = true := by
    intro hst
    refine List.any_eq_true.mpr ⟨t, hmem, ?_⟩
    unfold updMatches
    rw [hid, hst]
    simp
  have hB : t.status = o →
      ∃ tasks1, UpdateStatus tasks tid o n a d now = .ok tasks1
        ∧ findTask tasks1 tid = some (updApply n a d now t)
        ∧ ∀ u ∈ tasks, u.id ≠ tid → u ∈ tasks1 := by
    intro hst
    have hok : UpdateStatus tasks tid o n a d now =
        .ok (tasks.map (updRow tid o n a d now)) := by
      unfold UpdateStatus
      rw [if_pos (hback hst)]
    exact ⟨_, hok, findTask_UpdateStatus_ok hfind hok hst,
      UpdateStatus_preserves_other hok⟩
  refine ⟨⟨?_, fun hst => (hB hst).imp (fun _ h => h.1)⟩, hB, ?_⟩
  · rintro ⟨tasks1, hok⟩
    unfold UpdateStatus at hok
    by_cases hany : tasks.any (updMatches tid o) = true
    · exact hforward hany
    · rw [if_neg hany] at hok
      cases hok
  · intro hst
    unfold UpdateStatus
    rw [if_neg (fun hany => hst (hforward hany))]

/-- Witness for C4: on the one-task store, updating with the matching observed
status DONE succeeds, and with the stale observed status NEW it fails with the
concurrent-modification error. -/
theorem C4_updateStatus_conditional_write_witness :
    ((∃ tasks1, UpdateStatus [mkTask "t4" "W" "A" .done none] "t4"
        TaskStatus.done TaskStatus.cancelled none none 5 = .ok tasks1)
      ↔ (mkTask "t4" "W" "A" .done none).status = TaskStatus.done)
    ∧ UpdateStatus [mkTask "t4" "W" "A" .done none] "t4"
        TaskStatus.new TaskStatus.cancelled none none 5 = .error .taskAlreadyClaimed :=
  ⟨(C4_updateStatus_conditional_write [mkTask "t4" "W" "A" .done none] "t4"
      TaskStatus.done TaskStatus.cancelled none none 5
      (mkTask "t4" "W" "A" .done none) rfl (by decide)).1,
   (C4_updateStatus_conditional_write [mkTask "t4" "W" "A" .done none] "t4"
      TaskStatus.new TaskStatus.cancelled none none 5
      (mkTask "t4" "W" "A" .done none) rfl (by decide)).2.2 (by decide)⟩

theorem GetByIDForUpdate_ok {tasks : List Task} {tid : String} {t : Task}
    (h : GetByIDForUpdate tasks tid = .ok t) : findTask tasks tid = some t := by
  unfold GetByIDForUpdate GetByID at h
  cases hf : findTask tasks tid with
  | some u =>
    rw [hf] at h
    injection h with h2
    rw [h2]
  | none =>
    rw [hf] at h
    cases h

theorem CanClaim_ok {t : Task} {ag : Agent} {u : Unit}
    (h : CanClaim t ag = .ok u) : t.status = .new ∧ t.assigneeID = none := by
  unfold CanClaim at h
  by_cases h1 : t.status ≠ TaskStatus.new
  · rw [if_pos h1] at h
    cases h
  · rw [if_neg h1] at h
    push_neg at h1
    cases ha : t.assigneeID with
    | some x =>
      rw [ha] at h
      cases h
    | none => exact ⟨h1, rfl⟩

theorem CanEscalate_ok {t : Task} {ag : Agent} {u : Unit}
    (h : CanEscalate t ag = .ok u) : t.status = .inProgress := by
  unfold CanEscalate at h
  by_cases h1 : t.status ≠ TaskStatus.inProgress
  · rw [if_pos h1] at h
    cases h
  · push_neg at h1
    exact h1

theorem CanTakeover_ok {t : Task} {ag : Agent} {u : Unit}
    (h : CanTakeover t ag = .ok u) : t.status = .stuck := by
  unfold CanTakeover at h
  by_cases h1 : t.status ≠ TaskStatus.stuck
  · rw [if_pos h1] at h
    cases h
  · push_neg at h1
    exact h1

theorem ClaimTask_ok_spec {w : World} {taskID agentID comment : String}
    {ev : TaskEvent} {w1 : World}
    (hok : ClaimTask w taskID agentID comment = .ok (ev, w1)) :
    ∃ task workspace tasks1,
      findTask w.tasks taskID = some task
      ∧ task.status = .new
      ∧ getWorkspace w task.workspaceID = .ok workspace
      ∧ UpdateStatus w.tasks taskID .new .inProgress (some agentID)
          (CalculateDeadline workspace .inProgress w.now) w.now = .ok tasks1
      ∧ w1 = { w with tasks := tasks1, events := w.events ++ [ev] }
      ∧ findTask w1.tasks taskID =
          some (updApply .inProgress (some agentID)
                 (CalculateDeadline workspace .inProgress w.now) w.now task) := by
  unfold ClaimTask at hok
  by_cases hcom : comment = ""
  · rw [if_pos hcom] at hok
    cases hok
  rw [if_neg hcom] at hok
  cases hget : GetByIDForUpdate w.tasks taskID with
  | error e =>
    simp only [hget] at hok
    cases hok
  | ok task =>
  simp only [hget] at hok
  cases hag : getActiveAgent w agentID with
  | error e =>
    simp only [hag] at hok
    cases hok
  | ok agent =>
  simp only [hag] at hok
  cases hcc : CanClaim task agent with
  | error e =>
    simp only [hcc] at hok
    cases hok
  | ok u1 =>
  simp only [hcc] at hok
  cases hbb : CheckBlockedByResolved w.tasks task.blockedBy with
  | error e =>
    simp only [hbb] at hok
    cases hok
  | ok u2 =>
  simp only [hbb] at hok
  cases hws : getWorkspace w task.workspaceID with
  | error e =>
    simp only [hws] at hok
    cases hok
  | ok workspace =>
  simp only [hws] at hok
  cases hupd : UpdateStatus w.tasks taskID .new .inProgress (some agentID)
      (CalculateDeadline workspace .inProgress w.now) w.now with
  | error e =>
    simp only [hupd] at hok
    cases hok
  | ok tasks1 =>
  simp only [hupd] at hok
  injection hok with h2
  injection h2 with hev hw
  subst hev
  subst hw
  have hfind := GetByIDForUpdate_ok hget
  exact ⟨task, workspace, tasks1, hfind, (CanClaim_ok hcc).1, hws, hupd, rfl,
    findTask_UpdateStatus_ok hfind hupd (CanClaim_ok hcc).1⟩

theorem EscalateTask_ok_spec {w : World} {taskID agentID comment : String}
    {ev : TaskEvent} {w1 : World}
    (hok : EscalateTask w taskID agentID comment = .ok (ev, w1)) :
    ∃ task workspace tasks1,
      findTask w.tasks taskID = some task
      ∧ task.status = .inProgress
      ∧ getWorkspace w task.workspaceID = .ok workspace
      ∧ UpdateStatus w.tasks taskID .inProgress .blocked task.assigneeID
          (CalculateDeadline workspace .blocked w.now) w.now = .ok tasks1
      ∧ w1 = { w with tasks := tasks1, events := w.events ++ [ev] }
      ∧ findTask w1.tasks taskID =
          some (updApply .blocked task.assigneeID
                 (CalculateDeadline workspace .blocked w.now) w.now task) := by
  unfold EscalateTask at hok
  by_cases hcom : comment = ""
  · rw [if_pos hcom] at hok
    cases hok
  rw [if_neg hcom] at hok
  cases hget : GetByIDForUpdate w.tasks taskID with
  | error e =>
    simp only [hget] at hok
    cases hok
  | ok task =>
  simp only [hget] at hok
  cases hag : getActiveAgent w agentID with
  | error e =>
    simp only [hag] at hok
    cases hok
  | ok agent =>
  simp only [hag] at hok
  cases hcc : CanEscalate task agent with
  | error e =>
    simp only [hcc] at hok
    cases hok
  | ok u1 =>
  simp only [hcc] at hok
  cases hws : getWorkspace w task.workspaceID with
  | error e =>
    simp only [hws] at hok
    cases hok
  | ok workspace =>
  simp only [hws] at hok
  cases hupd : UpdateStatus w.tasks taskID .inProgress .blocked task.assigneeID
      (CalculateDeadline workspace .blocked w.now) w.now with
  | error e =>
    simp only [hupd] at hok
    cases hok
  | ok tasks1 =>
  simp only [hupd] at hok
  injection hok with h2
  injection h2 with hev hw
  subst hev
  subst hw
  have hfind := GetByIDForUpdate_ok hget
  exact ⟨task, workspace, tasks1, hfind, CanEscalate_ok hcc, hws, hupd, rfl,
    findTask_UpdateStatus_ok hfind hupd (CanEscalate_ok hcc)⟩

theorem TakeoverTask_ok_spec {w : World} {taskID agentID comment : String}
    {ev : TaskEvent} {w1 : World}
    (hok : TakeoverTask w taskID agentID comment = .ok (ev, w1)) :
    ∃ task workspace tasks1,
      findTask w.tasks taskID = some task
      ∧ task.status = .stuck
      ∧ getWorkspace w task.workspaceID = .ok workspace
      ∧ UpdateStatus w.tasks taskID .stuck .inProgress (some agentID)
          (CalculateDeadline workspace .inProgress w.now) w.now = .ok tasks1
      ∧ w1 = { w with tasks := tasks1, events := w.events ++ [ev] }
      ∧ findTask w1.tasks taskID =
          some (updApply .inProgress (some agentID)
                 (CalculateDeadline workspace .inProgress w.now) w.now task) := by
  unfold TakeoverTask at hok
  by_cases hcom : comment = ""
  · rw [if_pos hcom] at hok
    cases hok
  rw [if_neg hcom] at hok
  cases hget : GetByIDForUpdate w.tasks taskID with
  | error e =>
    simp only [hget] at hok
    cases hok
  | ok task =>
  simp only [hget] at hok
  cases hag : getActiveAgent w agentID with
  | error e =>
    simp only [hag] at hok
    cases hok
  | ok agent =>
  simp only [hag] at hok
  cases hcc : CanTakeover task agent with
  | error e =>
    simp only [hcc] at hok
    cases hok
  | ok u1 =>
  simp only [hcc] at hok
  cases hbb : CheckBlockedByResolved w.tasks task.blockedBy with
  | error e =>
    simp only [hbb] at hok
    cases hok
  | ok u2 =>
  simp only [hbb] at hok
  cases hws : getWorkspace w task.workspaceID with
  | error e =>
    simp only [hws] at hok
    cases hok
  | ok workspace =>
  simp only [hws] at hok
  cases hupd : UpdateStatus w.tasks taskID .stuck .inProgress (some agentID)
      (CalculateDeadline workspace .inProgress w.now) w.now with
  | error e =>
    simp only [hupd] at hok
    cases hok
  | ok tasks1 =>
  simp only [hupd] at hok
  injection hok with h2
  injection h2 with hev hw
  subst hev
  subst hw
  have hfind := GetByIDForUpdate_ok hget
  exact ⟨task, workspace, tasks1, hfind, CanTakeover_ok hcc, hws, hupd, rfl,
    findTask_UpdateStatus_ok hfind hupd (CanTakeover_ok hcc)⟩

theorem TransitionStatus_ok_spec {w : World} {taskID agentID : String}
    {tgt : TaskStatus} {comment : String} {ev : TaskEvent} {w1 : World}
    (hok : TransitionStatus w taskID agentID tgt comment = .ok (ev, w1)) :
    ∃ task workspace tasks1,
      findTask w.tasks taskID = some task
      ∧ getWorkspace w task.workspaceID = .ok workspace
      ∧ UpdateStatus w.tasks taskID task.status tgt
          (if ShouldClearAssignee tgt then none else task.assigneeID)
          (CalculateDeadline workspace tgt w.now) w.now = .ok tasks1
      ∧ w1 = { w with tasks := tasks1, events := w.events ++ [ev] }
      ∧ findTask w1.tasks taskID =
          some (updApply tgt
                 (if ShouldClearAssignee tgt then none else task.assigneeID)
                 (CalculateDeadline workspace tgt w.now) w.now task) := by
  unfold TransitionStatus at hok
  by_cases hcom : comment = ""
  · rw [if_pos hcom] at hok
    cases hok
  rw [if_neg hcom] at hok
  rw [if_neg (by simp [TaskStatus.IsValid])] at hok
  cases hget : GetByIDForUpdate w.tasks taskID with
  | error e =>
    simp only [hget] at hok
    cases hok
  | ok task =>
  simp only [hget] at hok
  cases hag : getActiveAgent w agentID with
  | error e =>
    simp only [hag] at hok
    cases hok
  | ok agent =>
  simp only [hag] at hok
  cases hcc : CanTransitionStatus task agent tgt with
  | error e =>
    simp only [hcc] at hok
    cases hok
  | ok u1 =>
  simp only [hcc] at hok
  cases hblk : (if tgt = TaskStatus.inProgress then
      match CheckBlockedByResolved w.tasks task.blockedBy with
      | .error e => .error e
      | .ok _ => CheckCyclicDependency w.tasks taskID
    else .ok () : Except DomainError Unit) with
  | error e =>
    simp only [hblk] at hok
    cases hok
  | ok u2 =>
  simp only [hblk] at hok
  cases hws : getWorkspace w task.workspaceID with
  | error e =>
    simp only [hws] at hok
    cases hok
  | ok workspace =>
  simp only [hws] at hok
  cases hupd : UpdateStatus w.tasks taskID task.status tgt
      (if ShouldClearAssignee tgt then none else task.assigneeID)
      (CalculateDeadline workspace tgt w.now) w.now with
  | error e =>
    simp only [hupd] at hok
    cases hok
  | ok tasks1 =>
  simp only [hupd] at hok
  injection hok with h2
  injection h2 with hev hw
  subst hev
  subst hw
  have hfind := GetByIDForUpdate_ok hget
  exact ⟨task, workspace, tasks1, hfind, hws, hupd, rfl,
    findTask_UpdateStatus_ok hfind hupd rfl⟩

/-- C5: on every successful transition the deadline of the item becomes the
value of CalculateDeadline for the target state; CalculateDeadline yields
now plus the configured minutes for a deadline-bearing target with a non-zero
configuration, nothing on entering DONE, CANCELLED or STUCK, and nothing when
the tenant configures no minutes for the target state. -/
theorem C5_deadline_rule :
    (∀ (w : World) (taskID agentID : String) (tgt : TaskStatus) (comment : String)
       (t : Task) (ws : Workspace) (ev : TaskEvent) (w1 : World),
       findTask w.tasks taskID = some t →
       getWorkspace w t.workspaceID = .ok ws →
       TransitionStatus w taskID agentID tgt comment = .ok (ev, w1) →
       (findTask w1.tasks taskID).map Task.statusDeadlineAt =
         some (CalculateDeadline ws tgt w.now))
    ∧ (∀ (ws : Workspace) (tgt : TaskStatus) (now m : Nat),
        tgt.HasDeadline = true → ws.GetDeadlineMinutes tgt = m → m ≠ 0 →
        CalculateDeadline ws tgt now = some (now + m * 60))
    ∧ (∀ (ws : Workspace) (tgt : TaskStatus) (now : Nat),
        tgt = TaskStatus.done ∨ tgt = TaskStatus.cancelled ∨ tgt = TaskStatus.stuck →
        CalculateDeadline ws tgt now = none)
    ∧ (∀ (ws : Workspace) (tgt : TaskStatus) (now : Nat),
        ws.GetDeadlineMinutes tgt = 0 → CalculateDeadline ws tgt now = none) := by
  refine ⟨?_, ?_, ?_, ?_⟩
  · intro w taskID agentID tgt comment t ws ev w1 hfind hws hok
    obtain ⟨task, workspace, tasks1, hfind2, hws2, hupd, hw1, hftask⟩ :=
      TransitionStatus_ok_spec hok
    rw [hfind] at hfind2
    injection hfind2 with htask
    subst htask
    rw [hws] at hws2
    injection hws2 with hwseq
    subst hwseq
    rw [hftask]
    rfl
  · intro ws tgt now m hhd hmin hne
    unfold CalculateDeadline
    rw [hhd, hmin]
    simp [hne]
  · intro ws tgt now h
    rcases h with rfl | rfl | rfl <;> rfl
  · intro ws tgt now h
    unfold CalculateDeadline
    cases hd : tgt.HasDeadline
    · simp
    · simp [h]

/-- Witness for C5: the assignee completes the demo IN_PROGRESS task (deadline
cleared), a configured 60-minute deadline computes from now, terminal targets
clear the deadline, and an unconfigured deadline-bearing state has none. -/
theorem C5_deadline_rule_witness :
    (∃ p : TaskEvent × World,
       TransitionStatus demoWorld "t-ip" "A" TaskStatus.done "done" = .ok p
       ∧ (findTask p.2.tasks "t-ip").map Task.statusDeadlineAt =
           some (CalculateDeadline wsMain TaskStatus.done demoWorld.now))
    ∧ CalculateDeadline wsMain TaskStatus.inProgress 0 = some (0 + 60 * 60)
    ∧ CalculateDeadline wsMain TaskStatus.done 7 = none
    ∧ CalculateDeadline wsSparse TaskStatus.new 7 = none := by
  refine ⟨⟨_, rfl, ?_⟩, ?_, ?_, ?_⟩
  · exact C5_deadline_rule.1 demoWorld "t-ip" "A" TaskStatus.done "done"
      (mkTask "t-ip" "W" "A" .inProgress (some "A")) wsMain _ _ rfl rfl rfl
  · exact C5_deadline_rule.2.1 wsMain TaskStatus.inProgress 0 60 rfl rfl (by decide)
  · exact C5_deadline_rule.2.2.1 wsMain TaskStatus.done 7 (Or.inl rfl)
  · exact C5_deadline_rule.2.2.2 wsSparse TaskStatus.new 7 rfl

/-- C6: on every successful operation the assignee changes exactly as the
specification says: a generic transition clears it when the target is NEW and
preserves it otherwise, a claim sets it to the initiator, a takeover replaces
it with the initiator, and an escalation leaves it untouched. -/
theorem C6_assignee_rule :
    (∀ (w : World) (taskID agentID : String) (tgt : TaskStatus) (comment : String)
       (t : Task) (ev : TaskEvent) (w1 : World),
       findTask w.tasks taskID = some t →
       TransitionStatus w taskID agentID tgt comment = .ok (ev, w1) →
       (findTask w1.tasks taskID).map Task.assigneeID =
         some (if tgt = TaskStatus.new then none else t.assigneeID))
    ∧ (∀ (w : World) (taskID agentID comment : String) (ev : TaskEvent) (w1 : World),
        ClaimTask w taskID agentID comment = .ok (ev, w1) →
        (findTask w1.tasks taskID).map Task.assigneeID = some (some agentID))
    ∧ (∀ (w : World) (taskID agentID comment : String) (ev : TaskEvent) (w1 : World),
        TakeoverTask w taskID agentID comment = .ok (ev, w1) →
        (findTask w1.tasks taskID).map Task.assigneeID = some (some agentID))
    ∧ (∀ (w : World) (taskID agentID comment : String) (t : Task)
         (ev : TaskEvent) (w1 : World),
        findTask w.tasks taskID = some t →
        EscalateTask w taskID agentID comment = .ok (ev, w1) →
        (findTask w1.tasks taskID).map Task.assigneeID = some t.assigneeID) := by
  refine ⟨?_, ?_, ?_, ?_⟩
  · intro w taskID agentID tgt comment t ev w1 hfind hok
    obtain ⟨task, workspace, tasks1, hfind2, hws2, hupd, hw1, hftask⟩ :=
      TransitionStatus_ok_spec hok
    rw [hfind] at hfind2
    injection hfind2 with htask
    subst htask
    rw [hftask]
    by_cases h : tgt = TaskStatus.new
    · subst h
      rfl
    · have hb : ShouldClearAssignee tgt = false := by
        unfold ShouldClearAssignee
        exact beq_eq_false_iff_ne.mpr h
      simp [updApply, hb, if_neg h]
  · intro w taskID agentID comment ev w1 hok
    obtain ⟨task, workspace, tasks1, hfind2, hst, hws2, hupd, hw1, hftask⟩ :=
      ClaimTask_ok_spec hok
    rw [hftask]
    rfl
  · intro w taskID agentID comment ev w1 hok
    obtain ⟨task, workspace, tasks1, hfind2, hst, hws2, hupd, hw1, hftask⟩ :=
      TakeoverTask_ok_spec hok
    rw [hftask]
    rfl
  · intro w taskID agentID comment t ev w1 hfind hok
    obtain ⟨task, workspace, tasks1, hfind2, hst, hws2, hupd, hw1, hftask⟩ :=
      EscalateTask_ok_spec hok
    rw [hfind] at hfind2
    injection hfind2 with htask
    subst htask
    rw [hftask]
    rfl

/-- Witness for C6: in the demo world, releasing the IN_PROGRESS task to NEW
clears the assignee; B claiming the free NEW task becomes assignee; B taking
over the STUCK task replaces assignee A; B escalating the IN_PROGRESS task
leaves assignee A in place. -/
theorem C6_assignee_rule_witness :
    (∃ p : TaskEvent × World,
       TransitionStatus demoWorld "t-ip" "A" TaskStatus.new "release" = .ok p
       ∧ (findTask p.2.tasks "t-ip").map Task.assigneeID = some none)
    ∧ (∃ p : TaskEvent × World,
        ClaimTask demoWorld "t-new" "B" "claiming" = .ok p
        ∧ (findTask p.2.tasks "t-new").map Task.assigneeID = some (some "B"))
    ∧ (∃ p : TaskEvent × World,
        TakeoverTask demoWorld "t-stuck" "B" "taking" = .ok p
        ∧ (findTask p.2.tasks "t-stuck").map Task.assigneeID = some (some "B"))
    ∧ (∃ p : TaskEvent × World,
        EscalateTask demoWorld "t-ip" "B" "stuck" = .ok p
        ∧ (findTask p.2.tasks "t-ip").map Task.assigneeID = some (some "A")) := by
  refine ⟨⟨_, rfl, ?_⟩, ⟨_, rfl, ?_⟩, ⟨_, rfl, ?_⟩, ⟨_, rfl, ?_⟩⟩
  · exact C6_assignee_rule.1 demoWorld "t-ip" "A" TaskStatus.new "release"
      (mkTask "t-ip" "W" "A" .inProgress (some "A")) _ _ rfl rfl
  · exact C6_assignee_rule.2.1 demoWorld "t-new" "B" "claiming" _ _ rfl
  · exact C6_assignee_rule.2.2.1 demoWorld "t-stuck" "B" "taking" _ _ rfl
  · exact C6_assignee_rule.2.2.2 demoWorld "t-ip" "B" "stuck"
      (mkTask "t-ip" "W" "A" .inProgress (some "A")) _ _ rfl rfl

/-- C10: claiming a NEW task that already has an assignee fails with the
task-already-claimed error (wire code TASK_ALREADY_CLAIMED) straight from the
validator — before any write is attempted — although no concurrent
modification occurred; claiming a task in any other state fails with the
invalid-transition error instead. -/
theorem C10_claim_on_assigned_new_task (w : World) (taskID agentID comment : String)
    (t : Task) (ag : Agent)
    (hcom : comment ≠ "")
    (hfind : findTask w.tasks taskID = some t)
    (hag : getActiveAgent w agentID = .ok ag) :
    (∀ x : String, t.status = TaskStatus.new → t.assigneeID = some x →
       ClaimTask w taskID agentID comment = .error .taskAlreadyClaimed)
    ∧ (t.status ≠ TaskStatus.new →
       ClaimTask w taskID agentID comment = .error .invalidTransition)
    ∧ MapDomainError .taskAlreadyClaimed = (409, "TASK_ALREADY_CLAIMED") := by
  have hget : GetByIDForUpdate w.tasks taskID = .ok t := by
    unfold GetByIDForUpdate GetByID
    rw [hfind]
  refine ⟨?_, ?_, rfl⟩
  · intro x hst hasg
    unfold ClaimTask
    rw [if_neg hcom]
    simp only [hget, hag]
    have hcc : CanClaim t ag = .error .taskAlreadyClaimed := by
      unfold CanClaim
      rw [if_neg (by rw [hst]; exact fun hcontra => hcontra rfl), hasg]
    simp only [hcc]
  · intro hst
    unfold ClaimTask
    rw [if_neg hcom]
    simp only [hget, hag]
    have hcc : CanClaim t ag = .error .invalidTransition := by
      unfold CanClaim
      rw [if_pos hst]
    simp only [hcc]

/-- Witness for C10: in the demo world, B claiming the NEW-but-assigned task
gets TASK_ALREADY_CLAIMED, and B claiming the IN_PROGRESS task gets the
invalid-transition error. -/
theorem C10_claim_on_assigned_new_task_witness :
    ClaimTask demoWorld "t-na" "B" "c" = .error .taskAlreadyClaimed
    ∧ ClaimTask demoWorld "t-ip" "B" "c" = .error .invalidTransition
    ∧ MapDomainError .taskAlreadyClaimed = (409, "TASK_ALREADY_CLAIMED") :=
  ⟨(C10_claim_on_assigned_new_task demoWorld "t-na" "B" "c"
      (mkTask "t-na" "W" "A" .new (some "A")) (mkAgent "B" "W")
      (by decide) rfl rfl).1 "A" rfl rfl,
   (C10_claim_on_assigned_new_task demoWorld "t-ip" "B" "c"
      (mkTask "t-ip" "W" "A" .inProgress (some "A")) (mkAgent "B" "W")
      (by decide) rfl rfl).2.1 (by decide),
   rfl⟩

theorem reapStep_pos (w : World) (s : Task)
    (hany : w.tasks.any (updMatches s.id s.status) = true) :
    reapStep w s =
      { w with
        tasks := w.tasks.map (updRow s.id s.status .stuck s.assigneeID none w.now)
        events := w.events ++ [expiredEventOf w.now s] } := by
  unfold reapStep processExpiredTask UpdateStatus
  simp only [if_pos hany]

theorem reapStep_neg (w : World) (s : Task)
    (hany : ¬ (w.tasks.any (updMatches s.id s.status) = true)) :
    reapStep w s = w := by
  unfold reapStep processExpiredTask UpdateStatus
  simp only [if_neg hany]

theorem reapStep_now (w : World) (s : Task) : (reapStep w s).now = w.now := by
  by_cases hany : w.tasks.any (updMatches s.id s.status) = true
  · rw [reapStep_pos w s hany]
  · rw [reapStep_neg w s hany]

theorem foldl_reapStep_now :
    ∀ (S : List Task) (w : World), (S.foldl reapStep w).now = w.now := by
  intro S
  induction S with
  | nil => intro w; rfl
  | cons s S ih =>
    intro w
    rw [List.foldl_cons]
    rw [ih (reapStep w s), reapStep_now]

theorem foldl_counted_world :
    ∀ (S : List Task) (w : World) (a b : Nat),
      (S.foldl reapStepCounted (w, a, b)).1 = S.foldl reapStep w := by
  intro S
  induction S with
  | nil => intro w a b; rfl
  | cons s S ih =>
    intro w a b
    rw [List.foldl_cons, List.foldl_cons]
    cases h : processExpiredTask w s with
    | error e =>
      have h1 : reapStepCounted (w, a, b) s = (w, a, b + 1) := by
        unfold reapStepCounted
        simp only [h]
      have h2 : reapStep w s = w := by
        unfold reapStep
        simp only [h]
      rw [h1, h2]
      exact ih w a (b + 1)
    | ok w1 =>
      have h1 : reapStepCounted (w, a, b) s = (w1, a + 1, b) := by
        unfold reapStepCounted
        simp only [h]
      have h2 : reapStep w s = w1 := by
        unfold reapStep
        simp only [h]
      rw [h1, h2]
      exact ih w1 (a + 1) b

theorem ProcessExpiredDeadlines_world (w : World) :
    (ProcessExpiredDeadlines w).1 =
      (FindExpiredDeadlines w.tasks w.now).foldl reapStep w := by
  unfold ProcessExpiredDeadlines
  exact foldl_counted_world _ w 0 0

theorem expiredPred_updApply_stuck (now n : Nat) (a : Option String) (v : Task) :
    expiredPred now (updApply .stuck a none n v) = false := rfl

theorem reap_no_expired :
    ∀ (S : List Task) (w : World),
      (∀ u ∈ w.tasks, expiredPred w.now u = true →
        ∃ s ∈ S, s.id = u.id ∧ s.status = u.status) →
      ∀ u ∈ (S.foldl reapStep w).tasks, expiredPred w.now u = false := by
  intro S
  induction S with
  | nil =>
    intro w hinv u hu
    cases hexp : expiredPred w.now u
    · rfl
    · rcases hinv u hu hexp with ⟨s, hs, _⟩
      cases hs
  | cons s S ih =>
    intro w hinv u hu
    rw [List.foldl_cons] at hu
    have hnow : (reapStep w s).now = w.now := reapStep_now w s
    have hinv' : ∀ v ∈ (reapStep w s).tasks, expiredPred (reapStep w s).now v = true →
        ∃ s' ∈ S, s'.id = v.id ∧ s'.status = v.status := by
      rw [hnow]
      by_cases hany : w.tasks.any (updMatches s.id s.status) = true
      · rw [reapStep_pos w s hany]
        intro v hv hexp
        rcases List.mem_map.mp hv with ⟨v0, hv0, rfl⟩
        by_cases hmat : updMatches s.id s.status v0 = true
        · rw [show updRow s.id s.status .stuck s.assigneeID none w.now v0 =
              updApply .stuck s.assigneeID none w.now v0 from by
                unfold updRow; rw [if_pos hmat]] at hexp
          rw [expiredPred_updApply_stuck] at hexp
          cases hexp
        · have hvr : updRow s.id s.status .stuck s.assigneeID none w.now v0 = v0 := by
            unfold updRow
            rw [if_neg hmat]
          rw [hvr] at hexp ⊢
          rcases hinv v0 hv0 hexp with ⟨s', hs', hids⟩
          rcases List.mem_cons.mp hs' with rfl | hmem2
          · exfalso
            apply hmat
            unfold updMatches
            rw [hids.1, hids.2]
            simp
          · exact ⟨s', hmem2, hids⟩
      · rw [reapStep_neg w s hany]
        intro v hv hexp
        rcases hinv v hv hexp with ⟨s', hs', hids⟩
        rcases List.mem_cons.mp hs' with rfl | hmem2
        · exfalso
          apply hany
          refine List.any_eq_true.mpr ⟨v, hv, ?_⟩
          unfold updMatches
          rw [hids.1, hids.2]
          simp
        · exact ⟨s', hmem2, hids⟩
    have hres := ih (reapStep w s) hinv' u hu
    rw [hnow] at hres
    exact hres

theorem reapStep_other (w : World) (s : Task) (tid : String) (h : s.id ≠ tid) :
    findTask (reapStep w s).tasks tid = findTask w.tasks tid
    ∧ countExpiredEvents (reapStep w s).events tid = countExpiredEvents w.events tid := by
  by_cases hany : w.tasks.any (updMatches s.id s.status) = true
  · rw [reapStep_pos w s hany]
    constructor
    · show findTask (w.tasks.map (updRow s.id s.status .stuck s.assigneeID none w.now))
        tid = findTask w.tasks tid
      rw [findTask_map_of_id _ (updRow_id s.id s.status .stuck s.assigneeID none w.now)]
      cases hf : findTask w.tasks tid with
      | none => rfl
      | some u =>
        have hu : u.id = tid := findTask_some_id hf
        have hunch : updRow s.id s.status .stuck s.assigneeID none w.now u = u := by
          unfold updRow updMatches
          rw [show (u.id == s.id) = false from beq_eq_false_iff_ne.mpr
            (by rw [hu]; exact fun he => h he.symm)]
          simp
        show some (updRow s.id s.status .stuck s.assigneeID none w.now u) = some u
        rw [hunch]
    · show countExpiredEvents (w.events ++ [expiredEventOf w.now s]) tid =
        countExpiredEvents w.events tid
      unfold countExpiredEvents
      rw [List.filter_append, List.length_append]
      have hne : ((expiredEventOf w.now s).taskID == tid) = false :=
        beq_eq_false_iff_ne.mpr h
      simp [List.filter, hne]
  · rw [reapStep_neg w s hany]
    exact ⟨rfl, rfl⟩

theorem reap_untouched :
    ∀ (S : List Task) (w : World) (tid : String),
      (∀ s ∈ S, s.id ≠ tid) →
      findTask (S.foldl reapStep w).tasks tid = findTask w.tasks tid
      ∧ countExpiredEvents (S.foldl reapStep w).events tid =
          countExpiredEvents w.events tid := by
  intro S
  induction S with
  | nil => intro w tid _; exact ⟨rfl, rfl⟩
  | cons s S ih =>
    intro w tid hne
    rw [List.foldl_cons]
    have h1 := reapStep_other w s tid (hne s (List.mem_cons_self s S))
    have h2 := ih (reapStep w s) tid (fun s' hs' => hne s' (List.mem_cons_of_mem _ hs'))
    exact ⟨h2.1.trans h1.1, h2.2.trans h1.2⟩

theorem reap_processes_item :
    ∀ (S : List Task) (w : World) (t : Task),
      (S.map Task.id).Nodup → t ∈ S →
      findTask w.tasks t.id = some t →
      findTask (S.foldl reapStep w).tasks t.id =
        some (updApply .stuck t.assigneeID none w.now t)
      ∧ countExpiredEvents (S.foldl reapStep w).events t.id =
          countExpiredEvents w.events t.id + 1 := by
  intro S
  induction S with
  | nil => intro w t _ hmem; cases hmem
  | cons s S ih =>
    intro w t hnd hmem hfind
    simp only [List.map_cons, List.nodup_cons] at hnd
    rw [List.foldl_cons]
    by_cases hts : t = s
    · subst hts
      have hany : w.tasks.any (updMatches t.id t.status) = true := by
        refine List.any_eq_true.mpr ⟨t, findTask_mem hfind, ?_⟩
        unfold updMatches
        simp
      have hstep := reapStep_pos w t hany
      have hrest : ∀ s' ∈ S, s'.id ≠ t.id := by
        intro s' hs' he
        exact hnd.1 (he ▸ List.mem_map_of_mem Task.id hs')
      have hunt := reap_untouched S (reapStep w t) t.id hrest
      constructor
      · rw [hunt.1, hstep]
        show findTask (w.tasks.map (updRow t.id t.status .stuck t.assigneeID none w.now))
          t.id = _
        rw [findTask_map_of_id _ (updRow_id t.id t.status .stuck t.assigneeID none w.now),
          hfind]
        have hmatch : updRow t.id t.status .stuck t.assigneeID none w.now t =
            updApply .stuck t.assigneeID none w.now t := by
          unfold updRow
          rw [if_pos (by unfold updMatches; simp)]
        show some (updRow t.id t.status .stuck t.assigneeID none w.now t) = _
        rw [hmatch]
      · rw [hunt.2, hstep]
        show countExpiredEvents (w.events ++ [expiredEventOf w.now t]) t.id = _ + 1
        unfold countExpiredEvents
        rw [List.filter_append, List.length_append]
        have hone : (List.filter
            (fun e => e.taskID == t.id && e.eventType == EventType.deadlineExpired)
            [expiredEventOf w.now t]).length = 1 := by
          simp [List.filter, expiredEventOf]
        rw [hone]
    · have hmem2 : t ∈ S := by
        rcases List.mem_cons.mp hmem with h | h
        · exact absurd h hts
        · exact h
      have hsid : s.id ≠ t.id := by
        intro he
        exact hnd.1 (he ▸ List.mem_map_of_mem Task.id hmem2)
      have hother := reapStep_other w s t.id hsid
      have hfind' : findTask (reapStep w s).tasks t.id = some t := by
        rw [hother.1]
        exact hfind
      have hnow : (reapStep w s).now = w.now := reapStep_now w s
      have hres := ih (reapStep w s) t hnd.2 hmem2 hfind'
      constructor
      · rw [hres.1, hnow]
      · rw [hres.2, hother.2]

/-- C7: the reaper pass is idempotent.  For an overdue item (ids unique), one
pass leaves it STUCK with the deadline cleared and exactly one
deadline_expired event recorded for it; after the pass the scan selects
nothing, and the second pass changes nothing and reports zero successes and
zero failures. -/
theorem C7_reaper_idempotent (w : World) (t : Task)
    (hmem : t ∈ w.tasks) (hexp : expiredPred w.now t = true)
    (hnd : (w.tasks.map Task.id).Nodup) :
    findTask (ProcessExpiredDeadlines w).1.tasks t.id =
      some (updApply .stuck t.assigneeID none w.now t)
    ∧ countExpiredEvents (ProcessExpiredDeadlines w).1.events t.id =
        countExpiredEvents w.events t.id + 1
    ∧ FindExpiredDeadlines (ProcessExpiredDeadlines w).1.tasks
        (ProcessExpiredDeadlines w).1.now = []
    ∧ ProcessExpiredDeadlines (ProcessExpiredDeadlines w).1 =
        ((ProcessExpiredDeadlines w).1, 0, 0) := by
  have hworld := ProcessExpiredDeadlines_world w
  have hSnd : ((FindExpiredDeadlines w.tasks w.now).map Task.id).Nodup :=
    List.Nodup.sublist (List.Sublist.map Task.id (List.filter_sublist _)) hnd
  have hmemS : t ∈ FindExpiredDeadlines w.tasks w.now :=
    List.mem_filter.mpr ⟨hmem, hexp⟩
  have hfind : findTask w.tasks t.id = some t := findTask_of_mem_nodup hmem hnd
  have hitem := reap_processes_item (FindExpiredDeadlines w.tasks w.now) w t
    hSnd hmemS hfind
  have hnoexp : ∀ u ∈ ((FindExpiredDeadlines w.tasks w.now).foldl reapStep w).tasks,
      expiredPred w.now u = false := by
    apply reap_no_expired
    intro u hu hue
    exact ⟨u, List.mem_filter.mpr ⟨hu, hue⟩, rfl, rfl⟩
  have hnow := foldl_reapStep_now (FindExpiredDeadlines w.tasks w.now) w
  have hscan : FindExpiredDeadlines
      ((FindExpiredDeadlines w.tasks w.now).foldl reapStep w).tasks
      ((FindExpiredDeadlines w.tasks w.now).foldl reapStep w).now = [] := by
    rw [hnow]
    unfold FindExpiredDeadlines
    rw [List.filter_eq_nil_iff]
    intro u hu
    rw [hnoexp u hu]
    simp
  refine ⟨?_, ?_, ?_, ?_⟩
  · rw [hworld]
    exact hitem.1
  · rw [hworld]
    exact hitem.2
  · rw [hworld]
    exact hscan
  · rw [hworld]
    unfold ProcessExpiredDeadlines
    rw [hscan]
    rfl

/-- Witness for C7: in the one-task overdue world, the pass leaves the task
STUCK with no deadline and one deadline_expired event; the rescans select
nothing and the second pass is a no-op with zero counts. -/
theorem C7_reaper_idempotent_witness :
    findTask (ProcessExpiredDeadlines c7World).1.tasks "t7" =
      some (updApply .stuck c7Task.assigneeID none c7World.now c7Task)
    ∧ countExpiredEvents (ProcessExpiredDeadlines c7World).1.events "t7" =
        countExpiredEvents c7World.events "t7" + 1
    ∧ FindExpiredDeadlines (ProcessExpiredDeadlines c7World).1.tasks
        (ProcessExpiredDeadlines c7World).1.now = []
    ∧ ProcessExpiredDeadlines (ProcessExpiredDeadlines c7World).1 =
        ((ProcessExpiredDeadlines c7World).1, 0, 0) :=
  C7_reaper_idempotent c7World c7Task (by decide) (by decide) (by decide)

end Sloptask
